import Mathlib

/-!
Verification development for the study-assistant tool backend
(`src/tool/functions.py`, `src/tool/rpc.py`, `src/tool/models.py`,
`src/tool/views.py`, `src/tool/serializers.py`).

The Python code is shallowly embedded: the Django-persisted
`StudyProgress` table becomes an explicit list of records in primary-key
(creation) order, hours become exact rationals (the code stores a
two-decimal `DecimalField`), the calendar date of a call becomes an
opaque day index (date rendering inside messages is abstracted to
`toString` of that index), and logging becomes an explicit list of log
events.  Exceptions become `Except` values.
-/

set_option autoImplicit false

namespace StudyAssistant

/-! ### Data model: `src/tool/models.py`, class `StudyProgress` -/

/-- One row of the `StudyProgress` table (`models.py`): `user_id`,
`topic`, `hours` (a two-decimal decimal, embedded as `ℚ`), and the
calendar date of the auto-set creation timestamp, embedded as a day
index `day : ℕ`. -/
structure StudyProgress where
  user_id : String
  topic : String
  hours : ℚ
  day : ℕ
  deriving Repr, DecidableEq

/-- The persistent store: all `StudyProgress` rows in primary-key
(creation) order.  `.filter(...).first()` with no explicit ordering
returns the first match in this order. -/
abbrev Store := List StudyProgress

/-- The row filter `user_id=..., topic=..., timestamp__date=current_date`
used by `track_progress` (`functions.py`). -/
def matchesKey (u t : String) (d : ℕ) (r : StudyProgress) : Bool :=
  r.user_id == u && r.topic == t && r.day == d

/-- `StudyProgress.objects.filter(user_id=u, topic=t,
timestamp__date=d).first()`. -/
def findToday (store : Store) (u t : String) (d : ℕ) : Option StudyProgress :=
  store.find? (matchesKey u t d)

/-- Persisting `progress_entry.save()` after mutating the fetched row:
the first row satisfying `p` is replaced by its image under `f`; every
other row is untouched. -/
def updateFirst (p : StudyProgress → Bool) (f : StudyProgress → StudyProgress) :
    Store → Store
  | [] => []
  | r :: rs => if p r then f r :: rs else r :: updateFirst p f rs

/-! ### Two-decimal rendering (`f"{x:.2f}"`)

Python renders with round-half-even on the underlying double; on the
two-decimal amounts this code stores, no rounding occurs at all, so the
tie-breaking mode is immaterial.  We use `round` (nearest integer) on
`q * 100`. -/

/-- Zero-padded two-digit rendering of the cents part. -/
def pad2 (n : ℕ) : String :=
  if n < 10 then "0" ++ toString n else toString n

/-- `f"{q:.2f}"` for the rationals this code formats (all nonnegative in
every reachable state). -/
def format2 (q : ℚ) : String :=
  let cents : ℤ := round (q * 100)
  toString (cents / 100) ++ "." ++ pad2 (cents % 100).toNat

/-! ### `track_progress` (`functions.py`, `trackProgress` tool)

The function returns a message; the mutated table is made explicit as
the second component.  `current_date` (`date.today()`) is the extra
`d` argument. -/

/-- Shallow embedding of `track_progress(user_id, topic, hours,
report_only)` from `functions.py`, with the store passed and returned
explicitly and the current date as an explicit day index. -/
def track_progress (store : Store) (user_id topic : String)
    (hours : ℚ) (report_only : Bool) (current_date : ℕ) : String × Store :=
  let progress_entry := findToday store user_id topic current_date
  if report_only then
    match progress_entry with
    | some r =>
        ("Your recorded progress for '" ++ topic ++ "' on " ++ toString current_date ++
          " is " ++ format2 r.hours ++ " hours.", store)
    | none =>
        ("No study progress recorded for '" ++ topic ++ "' on " ++
          toString current_date ++ ".", store)
  else
    if hours ≤ 0 then
      let current_hours : ℚ :=
        match progress_entry with
        | some r => r.hours
        | none => 0
      ("No new hours added for '" ++ topic ++ "'. Current total for today: " ++
        format2 current_hours ++ " hours.", store)
    else
      match progress_entry with
      | some r =>
          ("Updated progress for '" ++ topic ++ "' on " ++ toString current_date ++
            ": Added " ++ format2 hours ++ " hours. New total: " ++
            format2 (r.hours + hours) ++ " hours.",
            updateFirst (matchesKey user_id topic current_date)
              (fun e => { e with hours := e.hours + hours }) store)
      | none =>
          ("Successfully recorded " ++ format2 hours ++ " hours for '" ++ topic ++
            "' on " ++ toString current_date ++ ". Total for today: " ++
            format2 hours ++ " hours.",
            store ++ [⟨user_id, topic, hours, current_date⟩])

/-- A sequence of recording-mode calls (`report_only = false`) for the
same user, topic and day, applied left to right. -/
def runRecordings (store : Store) (u t : String) (d : ℕ) (hs : List ℚ) : Store :=
  hs.foldl (fun s h => (track_progress s u t h false d).2) store

/-! ### Capability descriptor builder: the `tool` decorator (`functions.py`)

`inspect.signature(func)` yields the parameter list in declaration
order; each parameter carries a name, an annotation and possibly a
default.  The decorator inspects only whether the annotation `is`
`int` / `float` / `bool`, so annotations are embedded as those three
marked cases plus everything else. -/

/-- A Python parameter annotation as the decorator distinguishes them:
`int`, `float`, `bool`, or anything else (including `str` and an absent
annotation), identified by a name. -/
inductive PyAnn
  | int
  | float
  | bool
  | other (descr : String)
  deriving Repr, DecidableEq

/-- One parameter of an inspected signature: its name, annotation, and
whether it has a default value (`param.default is not
inspect.Parameter.empty`). -/
structure PyParam where
  name : String
  annotation : PyAnn
  hasDefault : Bool
  deriving Repr, DecidableEq

/-- The `param_type` cascade in the decorator body: `"string"` unless
the annotation `is` `int`, `float` or `bool`. -/
def schemaType : PyAnn → String
  | .int => "integer"
  | .float => "number"
  | .bool => "boolean"
  | .other _ => "string"

/-- One iteration of the decorator's loop over
`signature.parameters.items()`: skip a parameter named `kwargs`,
otherwise append the parameter to `parameters_properties` (name ↦ type)
and, when it has no default, to `required_params`. -/
def buildSchemaStep (acc : List (String × String) × List String) (p : PyParam) :
    List (String × String) × List String :=
  if p.name == "kwargs" then acc
  else
    (acc.1 ++ [(p.name, schemaType p.annotation)],
     if p.hasDefault then acc.2 else acc.2 ++ [p.name])

/-- The decorator's loop over `signature.parameters.items()`: builds
the insertion-ordered `parameters_properties` mapping and the
`required_params` list. -/
def buildSchema (params : List PyParam) : List (String × String) × List String :=
  params.foldl buildSchemaStep ([], [])

/-- The `tool_metadata` dict assembled by the decorator: tool name,
description, and the `inputSchema` contents. -/
structure ToolMetadata where
  name : String
  description : String
  properties : List (String × String)
  required : List String
  deriving Repr, DecidableEq

/-- `tool_metadata = {...}` in the decorator body. -/
def mkToolMetadata (name description : String) (params : List PyParam) : ToolMetadata :=
  { name := name
    description := description
    properties := (buildSchema params).1
    required := (buildSchema params).2 }

/-! ### Tool registry (`_registered_tools` in `functions.py`) -/

/-- One application of the `tool(name, description)` decorator to a
function with the given signature. -/
structure ToolReg where
  name : String
  description : String
  params : List PyParam
  deriving Repr, DecidableEq

/-- `_registered_tools.append(tool_metadata)`: registration appends and
never fails, checks nothing, removes nothing. -/
def registerTool (s : List ToolMetadata) (r : ToolReg) : List ToolMetadata :=
  s ++ [mkToolMetadata r.name r.description r.params]

/-- The registry state after a startup sequence of decorator
applications, starting from the empty module-level list. -/
def registerAll (regs : List ToolReg) : List ToolMetadata :=
  regs.foldl registerTool []

/-- `get_registered_tools_metadata()` (`functions.py`): returns the
module-level list. -/
def get_registered_tools_metadata (s : List ToolMetadata) : List ToolMetadata := s

/-- One discovery call (`GET` on `rpc_endpoint`): returns the tool list
and the (unchanged) registry state it leaves behind. -/
def discover (s : List ToolMetadata) : List ToolMetadata × List ToolMetadata :=
  (get_registered_tools_metadata s, s)

/-! ### Invocation wrapper: `wrapper` inside the `tool` decorator

The wrapper logs the call, invokes the function, logs success or the
error, and re-raises.  Logging is made explicit as a list of emitted
log events; the Python exception becomes an `Except` error value. -/

/-- The two exception classes the wrapper distinguishes:
`OpenAIAPIError` and any other `Exception`, each carrying `str(e)`. -/
inductive PyError
  | openAIAPIError (msg : String)
  | generic (msg : String)
  deriving Repr, DecidableEq

/-- `str(e)`: the message text of the exception. -/
def PyError.text : PyError → String
  | .openAIAPIError m => m
  | .generic m => m

/-- One structured log event: level and message. -/
structure LogEvent where
  level : String
  message : String
  deriving Repr, DecidableEq

/-- The `wrapper(*args, **kwargs)` closure from the `tool` decorator:
logs the call, runs `func`, logs success or the error, and returns the
result unchanged or re-raises the caught exception unchanged. -/
def wrapTool {π : Type} (name : String) (func : π → Except PyError String) (p : π) :
    List LogEvent × Except PyError String :=
  let callLog : LogEvent := ⟨"info", "Tool call: " ++ name⟩
  match func p with
  | .ok result =>
      ([callLog, ⟨"info", "Tool success: " ++ name⟩], .ok result)
  | .error (.openAIAPIError m) =>
      ([callLog, ⟨"error", "OpenAI API error in tool: " ++ name⟩],
        .error (.openAIAPIError m))
  | .error (.generic m) =>
      ([callLog, ⟨"error", "Generic error in tool: " ++ name⟩],
        .error (.generic m))

/-! ### Dispatch endpoint: `rpc_endpoint` POST path (`rpc.py`) -/

/-- The POST body as `rpc_endpoint` reads it: `request.data.get("id")`,
`request.data.get("method")` (absent ↦ `none`), and
`request.data.get("params", {})`, left abstract as `π`. -/
structure RpcRequest (π : Type) where
  id : Option String
  method : Option String
  params : π

/-- The JSON-RPC-shaped response envelope: `{jsonrpc, id, result}` or
`{jsonrpc, id, error: {code, message}}`. -/
inductive RpcResponse
  | ok (id : Option String) (result : String)
  | err (id : Option String) (code : ℤ) (message : String)
  deriving Repr, DecidableEq

/-- The `id` field of either envelope. -/
def RpcResponse.respId : RpcResponse → Option String
  | .ok i _ => i
  | .err i _ _ => i

/-- Modelled from the spec: `get_tool_function` is imported by `rpc.py`
from `functions.py` but is not defined in the available sources; per
the spec's Tool Registry contract it is `lookup(name) → handler |
not-found` over the process-wide mapping from tool name to handler,
embedded here as first-match lookup in an association list. -/
def get_tool_function {π : Type} (handlers : List (String × (π → Except PyError String)))
    (name : String) : Option (π → Except PyError String) :=
  (handlers.find? (fun h => h.1 == name)).map (fun h => h.2)

/-- The POST branch of `rpc_endpoint` (`rpc.py`): truthiness of
`method_name` (`if not method_name`) covers both an absent field and an
empty string. -/
def rpc_endpoint_post {π : Type} (handlers : List (String × (π → Except PyError String)))
    (req : RpcRequest π) : RpcResponse :=
  match req.method with
  | none => .err req.id (-32600) "Method not provided"
  | some method_name =>
      if method_name == "" then .err req.id (-32600) "Method not provided"
      else
        match get_tool_function handlers method_name with
        | none =>
            .err req.id (-32601) ("Method '" ++ method_name ++ "' not found")
        | some func =>
            match func req.params with
            | .ok result => .ok req.id result
            | .error e =>
                .err req.id (-32603) ("Tool execution error: " ++ e.text)

/-! ### Direct track-progress endpoint: `TrackProgressView` (`views.py`)
with `TrackProgressInputSerializer` (`serializers.py`) -/

/-- The request body of `POST /track-progress/` as the serializer
declares it: `user_id`, `topic`, `hours` (decimal, default `0.0`) and
`report_only` (default `false`). -/
structure TrackBody where
  user_id : String
  topic : String
  hours : ℚ
  report_only : Bool
  deriving Repr, DecidableEq

/-- A value acceptable to the serializer's `DecimalField(max_digits=5,
decimal_places=2, min_value=0.0)`: nonnegative, at most two decimal
places, at most five digits. -/
def decimalOk (q : ℚ) : Bool :=
  0 ≤ q && (q * 100).den == 1 && q < 1000

/-- `TrackProgressInputSerializer.is_valid()`: the declared field
constraints (`CharField` is required and non-blank with
`max_length=255`) plus the `validate` hook, which rejects
`hours <= 0` when not in report-only mode. -/
def validBody (b : TrackBody) : Bool :=
  !(b.user_id == "") && b.user_id.length ≤ 255 &&
  !(b.topic == "") && b.topic.length ≤ 255 &&
  decimalOk b.hours &&
  (b.report_only || decide (0 < b.hours))

/-- The view's outcome: `200 {'message': …}`, or `400` with the
serializer errors (left abstract). -/
inductive ViewResponse
  | ok (message : String)
  | badRequest
  deriving Repr, DecidableEq

/-- `TrackProgressView.post` (`views.py`): validates the body, then
calls `track_progress` with `user_id = getattr(request.user,
'username', 'anonymous')` — the body's `user_id` field is never passed
on.  `username` is the authenticated caller's username when present. -/
def trackProgressView (store : Store) (username : Option String)
    (b : TrackBody) (current_date : ℕ) : ViewResponse × Store :=
  let user_id := username.getD "anonymous"
  if validBody b then
    let r := track_progress store user_id b.topic b.hours b.report_only current_date
    (.ok r.1, r.2)
  else
    (.badRequest, store)

/-! ### Store lemmas -/

theorem matchesKey_iff (u t : String) (d : ℕ) (r : StudyProgress) :
    matchesKey u t d r = true ↔ r.user_id = u ∧ r.topic = t ∧ r.day = d := by
  simp [matchesKey, and_assoc]

theorem matchesKey_hours_update (u t : String) (d : ℕ) (r : StudyProgress) (q : ℚ) :
    matchesKey u t d { r with hours := q } = matchesKey u t d r := by
  simp [matchesKey]

theorem updateFirst_countP (p q : StudyProgress → Bool) (f : StudyProgress → StudyProgress)
    (hf : ∀ r, q (f r) = q r) :
    ∀ store : Store, (updateFirst p f store).countP q = store.countP q := by
  intro store
  induction store with
  | nil => rfl
  | cons r rs ih =>
      by_cases hp : p r = true
      · simp [updateFirst, hp, List.countP_cons, hf]
      · simp [updateFirst, hp, List.countP_cons, ih]

theorem updateFirst_find? (p : StudyProgress → Bool) (f : StudyProgress → StudyProgress)
    (hf : ∀ r, p (f r) = p r) :
    ∀ store : Store, ∀ r : StudyProgress, store.find? p = some r →
      (updateFirst p f store).find? p = some (f r) := by
  intro store
  induction store with
  | nil => intro r h; simp [List.find?] at h
  | cons x xs ih =>
      intro r h
      by_cases hp : p x = true
      · rw [List.find?_cons_of_pos _ hp] at h
        cases h
        simp [updateFirst, hp, List.find?_cons_of_pos, hf]
      · rw [List.find?_cons_of_neg _ hp] at h
        have hstep : updateFirst p f (x :: xs) = x :: updateFirst p f xs := by
          simp [updateFirst, hp]
        rw [hstep, List.find?_cons_of_neg _ hp]
        exact ih r h

theorem find?_eq_none_countP (p : StudyProgress → Bool) (store : Store)
    (h : store.find? p = none) : store.countP p = 0 := by
  rw [List.find?_eq_none] at h
  rw [List.countP_eq_zero]
  intro a ha
  simpa using h a ha

/-! ### Helper lemmas about `track_progress` branches -/

theorem tp_report_snd (store : Store) (u t : String) (h : ℚ) (d : ℕ) :
    (track_progress store u t h true d).2 = store := by
  simp only [track_progress]
  cases findToday store u t d <;> simp

theorem tp_nonpos_snd (store : Store) (u t : String) (h : ℚ) (d : ℕ) (hh : h ≤ 0) :
    (track_progress store u t h false d).2 = store := by
  simp only [track_progress]
  rw [if_neg (by simp), if_pos hh]

theorem tp_pos_present_snd (store : Store) (u t : String) (h : ℚ) (d : ℕ)
    (r : StudyProgress) (hf : findToday store u t d = some r) (hpos : 0 < h) :
    (track_progress store u t h false d).2 =
      updateFirst (matchesKey u t d) (fun e => { e with hours := e.hours + h }) store := by
  simp only [track_progress, hf]
  rw [if_neg (by simp), if_neg (not_le.mpr hpos)]

theorem tp_pos_absent_snd (store : Store) (u t : String) (h : ℚ) (d : ℕ)
    (hf : findToday store u t d = none) (hpos : 0 < h) :
    (track_progress store u t h false d).2 = store ++ [⟨u, t, h, d⟩] := by
  simp only [track_progress, hf]
  rw [if_neg (by simp), if_neg (not_le.mpr hpos)]

theorem matchesKey_self (u t : String) (d : ℕ) (h : ℚ) :
    matchesKey u t d ⟨u, t, h, d⟩ = true := by
  simp [matchesKey]

theorem findToday_append_new (store : Store) (u t : String) (d : ℕ) (h : ℚ)
    (hf : findToday store u t d = none) :
    findToday (store ++ [⟨u, t, h, d⟩]) u t d = some ⟨u, t, h, d⟩ := by
  unfold findToday at hf ⊢
  rw [List.find?_append, hf]
  simp [matchesKey_self]

theorem tp_step_present (store : Store) (u t : String) (h : ℚ) (d : ℕ)
    (r : StudyProgress) (hf : findToday store u t d = some r) (hpos : 0 < h) :
    findToday (track_progress store u t h false d).2 u t d =
        some { r with hours := r.hours + h } ∧
      (track_progress store u t h false d).2.countP (matchesKey u t d) =
        store.countP (matchesKey u t d) := by
  rw [tp_pos_present_snd store u t h d r hf hpos]
  constructor
  · exact updateFirst_find? _ _ (fun e => matchesKey_hours_update u t d e (e.hours + h)) store r hf
  · exact updateFirst_countP _ _ _ (fun e => matchesKey_hours_update u t d e (e.hours + h)) store

/-- The tail of the aggregation argument: once a single record for the
key exists, every further positive recording call updates that record
in place, adding its hours. -/
theorem runRecordings_present (u t : String) (d : ℕ) :
    ∀ (hs : List ℚ) (store : Store) (r : StudyProgress),
      (∀ h ∈ hs, 0 < h) →
      findToday store u t d = some r →
      store.countP (matchesKey u t d) = 1 →
      ∃ r', findToday (runRecordings store u t d hs) u t d = some r' ∧
        r'.hours = r.hours + hs.sum ∧
        (runRecordings store u t d hs).countP (matchesKey u t d) = 1 := by
  intro hs
  induction hs with
  | nil =>
      intro store r _ hf hc
      exact ⟨r, hf, by simp, hc⟩
  | cons h rest ih =>
      intro store r hpos hf hc
      have hp : 0 < h := hpos h (by simp)
      obtain ⟨hstep_find, hstep_count⟩ := tp_step_present store u t h d r hf hp
      have hrun : runRecordings store u t d (h :: rest) =
          runRecordings (track_progress store u t h false d).2 u t d rest := rfl
      obtain ⟨r', h1, h2, h3⟩ :=
        ih (track_progress store u t h false d).2 { r with hours := r.hours + h }
          (fun x hx => hpos x (by simp [hx])) hstep_find (by rw [hstep_count, hc])
      refine ⟨r', by rw [hrun]; exact h1, ?_, by rw [hrun]; exact h3⟩
      rw [h2]
      simp [add_assoc]

/-! ### Claim theorems -/

/-- C2: for every user `u`, topic `t`, day `d`, and every non-empty
sequence of recording-mode calls with positive hours starting from a
store holding no record for `(u, t, d)`, the final stored hours for the
key equal the exact sum of the contributions and exactly one record
exists for the key; moreover the first call creates the record with the
first contribution as its initial value, and each subsequent call
increments the stored hours of the existing record. -/
theorem track_progress_aggregation (store : Store) (u t : String) (d : ℕ)
    (h1 : ℚ) (rest : List ℚ)
    (habs : findToday store u t d = none)
    (hpos : ∀ h ∈ h1 :: rest, 0 < h) :
    (∃ r, findToday (runRecordings store u t d (h1 :: rest)) u t d = some r ∧
      r.hours = (h1 :: rest).sum ∧
      (runRecordings store u t d (h1 :: rest)).countP (matchesKey u t d) = 1) ∧
    findToday (track_progress store u t h1 false d).2 u t d = some ⟨u, t, h1, d⟩ ∧
    (∀ (s : Store) (r : StudyProgress) (h : ℚ),
      findToday s u t d = some r → 0 < h →
      findToday (track_progress s u t h false d).2 u t d =
        some { r with hours := r.hours + h }) := by
  have hp1 : 0 < h1 := hpos h1 (by simp)
  have hsnd := tp_pos_absent_snd store u t h1 d habs hp1
  have hfind1 : findToday (track_progress store u t h1 false d).2 u t d =
      some ⟨u, t, h1, d⟩ := by
    rw [hsnd]; exact findToday_append_new store u t d h1 habs
  refine ⟨?_, hfind1, fun s r h hf hp => (tp_step_present s u t h d r hf hp).1⟩
  have hcount1 : (track_progress store u t h1 false d).2.countP (matchesKey u t d) = 1 := by
    rw [hsnd, List.countP_append, find?_eq_none_countP _ _ habs]
    simp [List.countP_cons, matchesKey_self]
  have hrun : runRecordings store u t d (h1 :: rest) =
      runRecordings (track_progress store u t h1 false d).2 u t d rest := rfl
  obtain ⟨r', ha, hb, hc⟩ := runRecordings_present u t d rest
    (track_progress store u t h1 false d).2 ⟨u, t, h1, d⟩
    (fun x hx => hpos x (by simp [hx])) hfind1 hcount1
  exact ⟨r', by rw [hrun]; exact ha, by rw [hb]; simp, by rw [hrun]; exact hc⟩

theorem track_progress_aggregation_witness :
    ∃ r, findToday (runRecordings [] "u1" "algebra" 0 [3/2, 1/2]) "u1" "algebra" 0 = some r ∧
      r.hours = ([3/2, 1/2] : List ℚ).sum ∧
      (runRecordings [] "u1" "algebra" 0 [3/2, 1/2]).countP (matchesKey "u1" "algebra" 0) = 1 :=
  (track_progress_aggregation [] "u1" "algebra" 0 (3/2) [1/2] rfl (by norm_num)).1

/-- C4: report-only calls never mutate the store and report the stored
hours formatted to two decimals (or a no-progress message when absent);
recording-mode calls with nonpositive hours never mutate the store and
report the pre-call total (0 when absent). -/
theorem track_progress_frame (store : Store) (u t : String) (h : ℚ) (d : ℕ) :
    ((track_progress store u t h true d).2 = store ∧
      (∀ r, findToday store u t d = some r →
        (track_progress store u t h true d).1 =
          "Your recorded progress for '" ++ t ++ "' on " ++ toString d ++
            " is " ++ format2 r.hours ++ " hours.") ∧
      (findToday store u t d = none →
        (track_progress store u t h true d).1 =
          "No study progress recorded for '" ++ t ++ "' on " ++ toString d ++ ".")) ∧
    (h ≤ 0 →
      (track_progress store u t h false d).2 = store ∧
      (∀ r, findToday store u t d = some r →
        (track_progress store u t h false d).1 =
          "No new hours added for '" ++ t ++ "'. Current total for today: " ++
            format2 r.hours ++ " hours.") ∧
      (findToday store u t d = none →
        (track_progress store u t h false d).1 =
          "No new hours added for '" ++ t ++ "'. Current total for today: " ++
            format2 0 ++ " hours.")) := by
  refine ⟨⟨tp_report_snd store u t h d, ?_, ?_⟩, fun hh => ⟨tp_nonpos_snd store u t h d hh, ?_, ?_⟩⟩
  · intro r hf; simp [track_progress, hf]
  · intro hf; simp [track_progress, hf]
  · intro r hf; simp [track_progress, hf, if_pos hh]
  · intro hf; simp [track_progress, hf, if_pos hh]

theorem track_progress_frame_witness :
    ((track_progress [⟨"u1", "algebra", 5/2, 0⟩] "u1" "algebra" 0 true 0).2 =
        [⟨"u1", "algebra", 5/2, 0⟩] ∧
      (track_progress [⟨"u1", "algebra", 5/2, 0⟩] "u1" "algebra" (-1) false 0).2 =
        [⟨"u1", "algebra", 5/2, 0⟩]) ∧
    (track_progress [⟨"u1", "algebra", 5/2, 0⟩] "u1" "algebra" (-1) false 0).1 =
      "No new hours added for 'algebra'. Current total for today: " ++
        format2 (5/2) ++ " hours." :=
  ⟨⟨(track_progress_frame [⟨"u1", "algebra", 5/2, 0⟩] "u1" "algebra" 0 0).1.1,
    ((track_progress_frame [⟨"u1", "algebra", 5/2, 0⟩] "u1" "algebra" (-1) 0).2
      (by decide)).1⟩,
    (((track_progress_frame [⟨"u1", "algebra", 5/2, 0⟩] "u1" "algebra" (-1) 0).2
      (by decide)).2.1 ⟨"u1", "algebra", 5/2, 0⟩ rfl)⟩

/-- C5: the empty store satisfies the at-most-one-record-per-key
invariant, and every `track_progress` call preserves it: non-recording
branches create nothing, a recording call creates a record only when
none exists for the key and otherwise updates the existing record in
place. -/
theorem track_progress_key_unique :
    (∀ u t : String, ∀ d : ℕ, ([] : Store).countP (matchesKey u t d) ≤ 1) ∧
    ∀ (store : Store) (u t : String) (h : ℚ) (ro : Bool) (d : ℕ),
      (∀ u' t' : String, ∀ d' : ℕ, store.countP (matchesKey u' t' d') ≤ 1) →
      ∀ u' t' : String, ∀ d' : ℕ,
        (track_progress store u t h ro d).2.countP (matchesKey u' t' d') ≤ 1 := by
  refine ⟨fun _ _ _ => by simp, fun store u t h ro d hinv u' t' d' => ?_⟩
  cases ro with
  | true => rw [tp_report_snd]; exact hinv u' t' d'
  | false =>
      by_cases hh : h ≤ 0
      · rw [tp_nonpos_snd store u t h d hh]; exact hinv u' t' d'
      · have hpos : 0 < h := not_le.mp hh
        cases hf : findToday store u t d with
        | some r =>
            rw [tp_pos_present_snd store u t h d r hf hpos,
              updateFirst_countP _ _ _
                (fun e => matchesKey_hours_update u' t' d' e (e.hours + h))]
            exact hinv u' t' d'
        | none =>
            rw [tp_pos_absent_snd store u t h d hf hpos, List.countP_append]
            by_cases hm : matchesKey u' t' d' ⟨u, t, h, d⟩ = true
            · obtain ⟨h1, h2, h3⟩ := (matchesKey_iff u' t' d' ⟨u, t, h, d⟩).mp hm
              subst h1; subst h2; subst h3
              rw [find?_eq_none_countP _ _ hf]
              simp [List.countP_cons, hm]
            · have : List.countP (matchesKey u' t' d') [(⟨u, t, h, d⟩ : StudyProgress)] = 0 := by
                simp [List.countP_cons, hm]
              rw [this]
              simpa using hinv u' t' d'

theorem track_progress_key_unique_witness :
    (track_progress [] "u1" "algebra" 1 false 0).2.countP (matchesKey "u1" "algebra" 0) ≤ 1 :=
  track_progress_key_unique.2 [] "u1" "algebra" 1 false 0
    (fun _ _ _ => by simp) "u1" "algebra" 0

/-! ### Registry helper lemmas -/

theorem registerAll_go (regs : List ToolReg) :
    ∀ s : List ToolMetadata,
      regs.foldl registerTool s =
        s ++ regs.map (fun r => mkToolMetadata r.name r.description r.params) := by
  induction regs with
  | nil => intro s; simp
  | cons r rs ih =>
      intro s
      rw [List.foldl_cons, ih (registerTool s r)]
      simp [registerTool]

theorem registerAll_eq (regs : List ToolReg) :
    registerAll regs = regs.map (fun r => mkToolMetadata r.name r.description r.params) := by
  rw [registerAll, registerAll_go]
  simp

theorem mkToolMetadata_name (n d : String) (ps : List PyParam) :
    (mkToolMetadata n d ps).name = n := rfl

/-! ### Descriptor builder lemmas -/

theorem buildSchema_go (params : List PyParam) :
    ∀ acc : List (String × String) × List String,
      params.foldl buildSchemaStep acc =
        (acc.1 ++ (params.filter (fun p => !(p.name == "kwargs"))).map
            (fun p => (p.name, schemaType p.annotation)),
         acc.2 ++ (params.filter
            (fun p => !(p.name == "kwargs") && !p.hasDefault)).map PyParam.name) := by
  induction params with
  | nil => intro acc; simp
  | cons p ps ih =>
      intro acc
      rw [List.foldl_cons, ih]
      by_cases hk : (p.name == "kwargs") = true
      · simp [buildSchemaStep, hk, List.filter_cons]
      · by_cases hd : p.hasDefault = true
        · simp [buildSchemaStep, hk, hd, List.filter_cons]
        · simp [buildSchemaStep, hk, hd, List.filter_cons]

theorem buildSchema_eq (params : List PyParam) :
    buildSchema params =
      ((params.filter (fun p => !(p.name == "kwargs"))).map
          (fun p => (p.name, schemaType p.annotation)),
       (params.filter
          (fun p => !(p.name == "kwargs") && !p.hasDefault)).map PyParam.name) := by
  rw [buildSchema, buildSchema_go]
  simp

theorem lookup_schema (l : List PyParam) :
    (l.map PyParam.name).Nodup → ∀ p ∈ l,
      (l.map (fun q => (q.name, schemaType q.annotation))).lookup p.name =
        some (schemaType p.annotation) := by
  induction l with
  | nil => intro _ p hp; cases hp
  | cons q qs ih =>
      intro hnd p hp
      rw [List.map_cons, List.nodup_cons] at hnd
      rcases List.mem_cons.mp hp with rfl | hmem
      · simp [List.lookup_cons]
      · have hne : (p.name == q.name) = false := by
          rw [beq_eq_false_iff_ne]
          intro he
          exact hnd.1 (he ▸ List.mem_map.mpr ⟨p, hmem, rfl⟩)
        rw [List.map_cons, List.lookup_cons, hne]
        exact ih hnd.2 p hmem

/-- C3: the capability descriptor builder (the `tool` decorator's
signature introspection) assigns parameter type `"integer"` iff the
annotation is `int`, `"number"` iff `float`, `"boolean"` iff `bool`,
and `"string"` in every other case; a parameter is required iff it has
no default; and a parameter named `kwargs` is excluded from the schema
entirely.  The builder is a pure function of the signature in this
embedding, hence deterministic by construction. -/
theorem tool_descriptor_builder (name descr : String) (params : List PyParam)
    (hnd : (params.map PyParam.name).Nodup) :
    (∀ pr ∈ (mkToolMetadata name descr params).properties, pr.1 ≠ "kwargs") ∧
    "kwargs" ∉ (mkToolMetadata name descr params).required ∧
    (∀ p ∈ params, p.name ≠ "kwargs" →
      ((mkToolMetadata name descr params).properties.lookup p.name =
          some (schemaType p.annotation) ∧
        (p.name ∈ (mkToolMetadata name descr params).required ↔ p.hasDefault = false))) ∧
    (∀ a : PyAnn, (schemaType a = "integer" ↔ a = PyAnn.int) ∧
      (schemaType a = "number" ↔ a = PyAnn.float) ∧
      (schemaType a = "boolean" ↔ a = PyAnn.bool) ∧
      (schemaType a = "string" ↔ a ≠ PyAnn.int ∧ a ≠ PyAnn.float ∧ a ≠ PyAnn.bool)) := by
  have hprops : (mkToolMetadata name descr params).properties =
      (params.filter (fun p => !(p.name == "kwargs"))).map
        (fun p => (p.name, schemaType p.annotation)) := by
    simp [mkToolMetadata, buildSchema_eq]
  have hreq : (mkToolMetadata name descr params).required =
      (params.filter (fun p => !(p.name == "kwargs") && !p.hasDefault)).map
        PyParam.name := by
    simp [mkToolMetadata, buildSchema_eq]
  have hinj := List.inj_on_of_nodup_map hnd
  refine ⟨?_, ?_, ?_, ?_⟩
  · intro pr hpr
    rw [hprops] at hpr
    obtain ⟨q, hq, rfl⟩ := List.mem_map.mp hpr
    have hq2 := (List.mem_filter.mp hq).2
    simpa using hq2
  · intro hmem
    rw [hreq] at hmem
    obtain ⟨q, hq, hqn⟩ := List.mem_map.mp hmem
    have hq2 := (List.mem_filter.mp hq).2
    rw [hqn] at hq2
    simp at hq2
  · intro p hp hk
    constructor
    · rw [hprops]
      have hfnd : ((params.filter (fun p => !(p.name == "kwargs"))).map
          PyParam.name).Nodup :=
        hnd.sublist ((List.filter_sublist params).map PyParam.name)
      exact lookup_schema _ hfnd p (List.mem_filter.mpr ⟨hp, by simp [hk]⟩)
    · rw [hreq]
      constructor
      · intro hmem
        obtain ⟨q, hq, hqn⟩ := List.mem_map.mp hmem
        obtain ⟨hqmem, hqpred⟩ := List.mem_filter.mp hq
        have hqp : q = p := hinj hqmem hp hqn
        subst hqp
        have hq2 : q.name ≠ "kwargs" ∧ q.hasDefault = false := by simpa using hqpred
        exact hq2.2
      · intro hd
        exact List.mem_map.mpr ⟨p, List.mem_filter.mpr ⟨hp, by simp [hk, hd]⟩, rfl⟩
  · intro a
    cases a <;> simp [schemaType]

theorem tool_descriptor_builder_witness :
    (mkToolMetadata "trackProgress" "d"
        [⟨"user_id", PyAnn.other "str", false⟩, ⟨"topic", PyAnn.other "str", false⟩,
         ⟨"hours", PyAnn.float, true⟩, ⟨"report_only", PyAnn.bool, true⟩]).properties.lookup
        "hours" = some (schemaType PyAnn.float) ∧
    ("hours" ∈ (mkToolMetadata "trackProgress" "d"
        [⟨"user_id", PyAnn.other "str", false⟩, ⟨"topic", PyAnn.other "str", false⟩,
         ⟨"hours", PyAnn.float, true⟩, ⟨"report_only", PyAnn.bool, true⟩]).required ↔
      (⟨"hours", PyAnn.float, true⟩ : PyParam).hasDefault = false) :=
  (tool_descriptor_builder "trackProgress" "d"
    [⟨"user_id", PyAnn.other "str", false⟩, ⟨"topic", PyAnn.other "str", false⟩,
     ⟨"hours", PyAnn.float, true⟩, ⟨"report_only", PyAnn.bool, true⟩]
    (by decide)).2.2.1 ⟨"hours", PyAnn.float, true⟩ (by decide) (by decide)

/-- C6: the invocation wrapper is transparent to outcomes — for every
tool and argument value, the wrapped call's outcome (result or raised
error) is exactly the wrapped handler's outcome; errors are only logged
and re-raised unchanged, never swallowed or transformed. -/
theorem wrapTool_transparent {π : Type} (name : String)
    (func : π → Except PyError String) (p : π) :
    (wrapTool name func p).2 = func p := by
  cases h : func p with
  | ok r => simp [wrapTool, h]
  | error e => cases e <;> simp [wrapTool, h]

/-- C7 counterexample: the `tool` decorator performs no duplicate-name
check — registering the same name twice succeeds and leaves two entries
with that name, so tool names in the registry are not unique after this
sequence of (successful) registrations. -/
theorem duplicate_registration_not_rejected :
    ¬ ((registerAll [⟨"summarizeText", "d1", []⟩, ⟨"summarizeText", "d2", []⟩]).map
        ToolMetadata.name).Nodup := by
  decide

/-- C7 amended: registration never fails and never checks for duplicate
names; it only appends one entry, so existing entries are never removed
or mutated, and the registry's tool names are exactly the registered
names in order — in particular they are unique iff the names passed to
the registration sequence are pairwise distinct. -/
theorem registry_append_only (s : List ToolMetadata) (r : ToolReg) (regs : List ToolReg) :
    registerTool s r = s ++ [mkToolMetadata r.name r.description r.params] ∧
    (registerAll regs).map ToolMetadata.name = regs.map ToolReg.name ∧
    (((registerAll regs).map ToolMetadata.name).Nodup ↔ (regs.map ToolReg.name).Nodup) := by
  have hnames : (registerAll regs).map ToolMetadata.name = regs.map ToolReg.name := by
    rw [registerAll_eq, List.map_map]
    rfl
  exact ⟨rfl, hnames, by rw [hnames]⟩

/-- C8: discovery is idempotent — a discovery call leaves the registry
unchanged, so two discovery calls with no intervening registration
return the same ordered list — and the returned list is exactly the
registered tools' metadata in registration (insertion) order. -/
theorem discovery_idempotent_ordered (regs : List ToolReg) :
    (discover (registerAll regs)).1 = (discover (discover (registerAll regs)).2).1 ∧
    (discover (registerAll regs)).2 = registerAll regs ∧
    get_registered_tools_metadata (registerAll regs) =
      regs.map (fun r => mkToolMetadata r.name r.description r.params) := by
  exact ⟨rfl, rfl, registerAll_eq regs⟩

/-- C1: for every dispatch request, the response envelope echoes the
request's `id` unmodified, and the outcome maps exactly as specified:
missing or empty method yields error -32600 with message "Method not
provided"; an unregistered method yields error -32601 regardless of
params; a handler error yields error -32603 whose message contains the
underlying error text; otherwise the response carries the handler's
result.  (The registry lookup `get_tool_function` is modelled from the
spec, since only its caller is in the sources.) -/
theorem rpc_dispatch_spec {π : Type} (handlers : List (String × (π → Except PyError String)))
    (req : RpcRequest π) :
    (rpc_endpoint_post handlers req).respId = req.id ∧
    ((req.method = none ∨ req.method = some "") →
      rpc_endpoint_post handlers req = .err req.id (-32600) "Method not provided") ∧
    (∀ m, req.method = some m → m ≠ "" → get_tool_function handlers m = none →
      rpc_endpoint_post handlers req =
        .err req.id (-32601) ("Method '" ++ m ++ "' not found")) ∧
    (∀ m f e, req.method = some m → m ≠ "" → get_tool_function handlers m = some f →
      f req.params = .error e →
      rpc_endpoint_post handlers req =
        .err req.id (-32603) ("Tool execution error: " ++ e.text)) ∧
    (∀ m f r, req.method = some m → m ≠ "" → get_tool_function handlers m = some f →
      f req.params = .ok r →
      rpc_endpoint_post handlers req = .ok req.id r) := by
  obtain ⟨i, m?, p⟩ := req
  refine ⟨?_, ?_, ?_, ?_, ?_⟩
  · cases m? with
    | none => rfl
    | some m =>
        by_cases hm : (m == "") = true
        · simp [rpc_endpoint_post, hm, RpcResponse.respId]
        · simp only [rpc_endpoint_post, hm, Bool.false_eq_true, if_false]
          cases hg : get_tool_function handlers m with
          | none => rfl
          | some f =>
              cases hr : f p with
              | ok r => simp [hr, RpcResponse.respId]
              | error e => simp [hr, RpcResponse.respId]
  · rintro (hm | hm) <;> subst hm
    · rfl
    · simp [rpc_endpoint_post]
  · rintro m rfl hne hg
    have hm : (m == "") = false := beq_eq_false_iff_ne.mpr hne
    simp [rpc_endpoint_post, hm, hg]
  · rintro m f e rfl hne hg hf
    have hm : (m == "") = false := beq_eq_false_iff_ne.mpr hne
    simp [rpc_endpoint_post, hm, hg, hf]
  · rintro m f r rfl hne hg hf
    have hm : (m == "") = false := beq_eq_false_iff_ne.mpr hne
    simp [rpc_endpoint_post, hm, hg, hf]

theorem rpc_dispatch_spec_witness :
    rpc_endpoint_post
        [("summarizeText", fun _ : Unit => Except.error (PyError.generic "boom"))]
        ⟨some "7", some "summarizeText", ()⟩ =
      RpcResponse.err (some "7") (-32603)
        ("Tool execution error: " ++ PyError.text (PyError.generic "boom")) :=
  (rpc_dispatch_spec
      [("summarizeText", fun _ : Unit => Except.error (PyError.generic "boom"))]
      ⟨some "7", some "summarizeText", ()⟩).2.2.2.1
    "summarizeText" (fun _ : Unit => Except.error (PyError.generic "boom"))
    (PyError.generic "boom") rfl (by decide) rfl rfl

/-- C10: the direct track-progress endpoint stores and reports under
the authenticated caller's username (falling back to "anonymous"),
never under the body's `user_id` field: two valid requests from the
same authenticated user differing only in the body's `user_id` produce
the same response and the same store — even though the body's `user_id`
is required (an empty one fails validation). -/
theorem trackProgressView_ignores_body_user_id :
    (∀ (store : Store) (username : Option String) (b : TrackBody) (v : String) (d : ℕ),
      validBody b = true → validBody { b with user_id := v } = true →
      trackProgressView store username b d =
        trackProgressView store username { b with user_id := v } d) ∧
    ∀ b : TrackBody, validBody { b with user_id := "" } = false := by
  constructor
  · intro store username b v d hb hb'
    simp only [trackProgressView, hb, hb', if_true]
  · intro b
    simp [validBody]

theorem trackProgressView_ignores_body_user_id_witness :
    trackProgressView [] (some "alice") ⟨"mallory", "math", 1, false⟩ 0 =
      trackProgressView [] (some "alice") ⟨"other", "math", 1, false⟩ 0 :=
  trackProgressView_ignores_body_user_id.1 [] (some "alice")
    ⟨"mallory", "math", 1, false⟩ "other" 0
    (by simp [validBody, decimalOk]; decide) (by simp [validBody, decimalOk]; decide)

end StudyAssistant
